import Mathlib

/-!
Shallow embedding of the Scribo meeting-assistant client
(src/App.tsx, src/hooks/useAudioRecorder.ts, src/services/geminiService.ts,
src/types.ts), together with theorems settling the specification claims.

Conventions of the embedding:
* JavaScript strings become Lean `String`; `String(x).includes(sub)` becomes
  substring containment on character lists (`jsIncludes`).
* `process.env.API_KEY` (a `string | undefined`) becomes `Option String`;
  the JavaScript falsiness test `!apiKey` is true for `none` and for `some ""`.
* Fallible calls become `Except String` values; an external remote call is a
  parameter of the model, and every model of a service wrapper additionally
  returns a `Bool` recording whether the remote service was actually contacted.
* React state updates become pure functions on an explicit `AppState`.
-/

/-! ## Data model (src/types.ts) -/

/-- Structure `TranscriptChunk` from src/types.ts. -/
structure TranscriptChunk where
  id : String
  text : String
  timestamp : Nat
  isFinal : Bool
  deriving DecidableEq, Repr

/-- Enumeration `RecordingState` from src/types.ts. -/
inductive RecordingState where
  | idle
  | recording
  | processing
  | paused
  deriving DecidableEq, Repr

/-! ## JavaScript string helpers -/

/-- Does `sub` occur contiguously in the character list? -/
def charListHasInfix (sub : List Char) : List Char → Bool
  | [] => sub.isEmpty
  | c :: rest => sub.isPrefixOf (c :: rest) || charListHasInfix sub rest

/-- Model of `s.includes(sub)` of JavaScript: `sub` occurs contiguously in `s`. -/
def jsIncludes (s sub : String) : Bool :=
  charListHasInfix sub.toList s.toList

/-- Model of `String(b)` of JavaScript on a boolean. -/
def jsBoolString (b : Bool) : String :=
  if b then "true" else "false"

/-- Model of `s.trim()` of JavaScript: strip leading and trailing whitespace. -/
def jsTrim (s : String) : String :=
  String.mk (((s.toList.dropWhile Char.isWhitespace).reverse.dropWhile
    Char.isWhitespace).reverse)

/-! ## Service layer (src/services/geminiService.ts) -/

/-- The JavaScript falsiness test `!apiKey` on `process.env.API_KEY`:
true when the variable is absent or the empty string. -/
def jsFalsyKey : Option String → Bool
  | none => true
  | some s => s == ""

/-- Error message raised by `checkApiKey` in geminiService.ts. -/
def geminiKeyMissingMessage : String :=
  "Gemini API Key is missing. Please check your environment configuration."

/-- Function `checkApiKey` from geminiService.ts: throws when the key is falsy. -/
def checkApiKey (apiKey : Option String) : Except String Unit :=
  if jsFalsyKey apiKey then Except.error geminiKeyMissingMessage else Except.ok ()

/-- The catch-block of `transcribeAudio` in geminiService.ts: a default
message, then three sequential (not chained) overwrites keyed on substrings
of the stringified error. -/
def transcribeErrorMessage (errString : String) : String :=
  let message := "Transcription failed."
  let message := if jsIncludes errString "401" || jsIncludes errString "403" then
      "Invalid API Key or unauthorized access." else message
  let message := if jsIncludes errString "429" then
      "Usage limit exceeded. Please wait a moment." else message
  let message := if jsIncludes errString "500" then
      "Gemini service temporarily unavailable." else message
  message

/-- The catch-block of `analyzeTranscript` in geminiService.ts. -/
def analyzeErrorMessage (errString : String) : String :=
  let message := "Analysis failed."
  if jsIncludes errString "429" then "Analysis quota exceeded. Retrying later." else message

/-- Model of `transcribeAudio` from geminiService.ts.  The remote `generateContent`
call is abstracted as `remote`: on success the service returns the optional
`response.text` (the code computes `response.text?.trim() || ""`); on failure
it throws a stringified error.  The returned `Bool` records whether the
remote service was contacted. -/
def transcribeAudioModel (apiKey : Option String)
    (remote : Except String (Option String)) : Except String String × Bool :=
  match checkApiKey apiKey with
  | Except.error e => (Except.error e, false)
  | Except.ok _ =>
    match remote with
    | Except.ok t => (Except.ok (jsTrim (t.getD "")), true)
    | Except.error e => (Except.error (transcribeErrorMessage e), true)

/-- Model of `analyzeTranscript` from geminiService.ts: key check, then the
empty-transcript guard `if (!fullTranscript.trim()) return ""`, then the
remote call (whose result is `response.text || ""`). -/
def analyzeTranscriptModel (apiKey : Option String) (fullTranscript : String)
    (remote : Except String (Option String)) : Except String String × Bool :=
  match checkApiKey apiKey with
  | Except.error e => (Except.error e, false)
  | Except.ok _ =>
    if jsTrim fullTranscript == "" then (Except.ok "", false)
    else
      match remote with
      | Except.ok t => (Except.ok (t.getD ""), true)
      | Except.error e => (Except.error (analyzeErrorMessage e), true)

/-- The user-facing message the claim expects for a failure with HTTP status
code `c`, as the spec words it: 401/403, 429, 500, and a catch-all. -/
def expectedTranscribeMessage (c : Nat) : String :=
  if c = 401 ∨ c = 403 then "Invalid API Key or unauthorized access."
  else if c = 429 then "Usage limit exceeded. Please wait a moment."
  else if c = 500 then "Gemini service temporarily unavailable."
  else "Transcription failed."

/-! ## App state and handlers (src/App.tsx) -/

/-- Constant `CHUNK_INTERVAL` from App.tsx: 8 seconds per audio chunk, in ms. -/
def CHUNK_INTERVAL : Nat := 8000

/-- Constant `ANALYSIS_TRIGGER_LENGTH` from App.tsx. -/
def ANALYSIS_TRIGGER_LENGTH : Nat := 150

/-- The React state of `App` that the claims are about. -/
structure AppState where
  transcriptChunks : List TranscriptChunk
  fullTranscript : String
  analysisResult : String
  isAnalyzing : Bool
  lastAnalyzedLength : Nat
  deriving DecidableEq, Repr

/-- The state update performed by `processAudioChunk` in App.tsx once
`transcribeAudio` has settled.  On a rejected promise the catch-block only
shows a toast, leaving the state unchanged; on a resolved empty text the
guard `if (!text) return` fires; otherwise one chunk is appended and the
transcript is extended by a newline and the text. -/
def processAudioChunk (s : AppState) (result : Except String String)
    (now : Nat) : AppState :=
  match result with
  | Except.error _ => s
  | Except.ok text =>
    if text == "" then s
    else
      { s with
        transcriptChunks := s.transcriptChunks ++
          [{ id := toString now, text := text, timestamp := now, isFinal := true }],
        fullTranscript := s.fullTranscript ++ "\n" ++ text }

/-- The synchronous part of `triggerAnalysis` in App.tsx: the guard
`if (isAnalyzing || !fullTranscript.trim()) return`, then setting
`isAnalyzing` and `lastAnalyzedLength` before issuing the remote call.
The second component is the transcript handed to `analyzeTranscript`
(`none` when no analysis is started). -/
def triggerAnalysisStart (s : AppState) : AppState × Option String :=
  if s.isAnalyzing || jsTrim s.fullTranscript == "" then (s, none)
  else
    ({ s with isAnalyzing := true, lastAnalyzedLength := s.fullTranscript.length },
     some s.fullTranscript)

/-- The analysis-trigger effect in App.tsx: when the transcript has grown by
more than `ANALYSIS_TRIGGER_LENGTH` since the last analysis and none is in
flight, `triggerAnalysis` is invoked.  JavaScript subtraction is signed, so
the lengths are compared in `Int`. -/
def analysisEffect (s : AppState) : AppState × Option String :=
  if (s.fullTranscript.length : Int) - (s.lastAnalyzedLength : Int) >
      (ANALYSIS_TRIGGER_LENGTH : Int) ∧ s.isAnalyzing = false then
    triggerAnalysisStart s
  else (s, none)

/-- Model of `handleClear` from App.tsx (state part): resets the four transcript and
analysis fields together. -/
def handleClear (s : AppState) : AppState :=
  { s with
    transcriptChunks := []
    fullTranscript := ""
    analysisResult := ""
    lastAnalyzedLength := 0 }

/-- The `onstop` handler of a segment recorder in useAudioRecorder.ts: the
collected data parts (modelled by their byte sizes) are assembled into one
blob and handed to `onAudioChunk` exactly when the blob size is positive. -/
def recorderOnStop (parts : List Nat) : Option Nat :=
  let size := parts.sum
  if size > 0 then some size else none

/-! ## Audio recorder (src/hooks/useAudioRecorder.ts) -/

/-- Default value of the `chunkInterval` prop of `useAudioRecorder`. -/
def chunkIntervalDefault : Nat := 5000

/-- Outcome of the `getDisplayMedia` attempt in `startChunkLoop`:
granted with an audio track, granted without an audio track, rejected by
the permissions policy, denied by the user, failed for another reason, or
not attempted because the browser lacks `getDisplayMedia`. -/
inductive SystemCaptureOutcome where
  | granted
  | noAudioTrack
  | blockedByPolicy
  | deniedByUser
  | otherFailure
  | unsupported
  deriving DecidableEq, Repr

/-- The permission environment a run of `startChunkLoop` faces. -/
structure CaptureEnv where
  systemCapture : SystemCaptureOutcome
  micGranted : Bool
  deriving DecidableEq, Repr

/-- Toast type passed to the `onError` callback. -/
inductive ToastType where
  | error
  | info
  deriving DecidableEq, Repr

/-- Observable outcome of one run of `startChunkLoop`. -/
structure StartResult where
  recordingState : RecordingState
  notifications : List (String × ToastType)
  attemptedSystemCapture : Bool
  usesSystemAudio : Bool
  usesMicrophone : Bool
  started : Bool
  deriving DecidableEq, Repr

/-- Message passed to `onError` when `getDisplayMedia` fails with a
permissions-policy error (useAudioRecorder.ts line 46). -/
def systemAudioBlockedMessage : String :=
  "System audio blocked (browser restriction). Falling back to Microphone. Open in new tab to capture system audio."

/-- Message passed to `onError` when the shared stream has no audio track
(useAudioRecorder.ts line 69). -/
def noSystemAudioMessage : String :=
  "No system audio detected. Please ensure \x27Share Audio\x27 is checked in the browser dialog. Recording Microphone only."

/-- Message passed to `onError` when neither source is available
(useAudioRecorder.ts line 88). -/
def noSourcesMessage : String :=
  "Could not access Microphone or System Audio. Please check permissions."

/-- Model of `startChunkLoop` from useAudioRecorder.ts, as a function of the
permission environment.  Following the source: the hook first attempts
system-audio capture (whenever `getDisplayMedia` exists), notifying the user
only in the permissions-policy case and in the shared-stream-without-audio
case; user denial and other failures are logged to the console only.  It
then attempts microphone capture.  With neither source it reports
`noSourcesMessage` and calls `stopRecording`, which returns the state to
IDLE; otherwise the mixed recording starts. -/
def startChunkLoopRun (env : CaptureEnv) : StartResult :=
  let attempted : Bool := env.systemCapture != SystemCaptureOutcome.unsupported
  let usingScreenAudio : Bool := env.systemCapture == SystemCaptureOutcome.granted
  let sysNotes : List (String × ToastType) :=
    match env.systemCapture with
    | SystemCaptureOutcome.blockedByPolicy => [(systemAudioBlockedMessage, ToastType.info)]
    | SystemCaptureOutcome.noAudioTrack => [(noSystemAudioMessage, ToastType.info)]
    | _ => []
  if !usingScreenAudio && !env.micGranted then
    { recordingState := RecordingState.idle
      notifications := sysNotes ++ [(noSourcesMessage, ToastType.error)]
      attemptedSystemCapture := attempted
      usesSystemAudio := false
      usesMicrophone := false
      started := false }
  else
    { recordingState := RecordingState.recording
      notifications := sysNotes
      attemptedSystemCapture := attempted
      usesSystemAudio := usingScreenAudio
      usesMicrophone := env.micGranted
      started := true }

/-- The `recordSegment` loop of useAudioRecorder.ts.  Segment number `k`
beginning at time `t` is recorded over `[t, t + chunkInterval)`; when its
timeout stops the recorder, the next segment is started at once when the
recording flag is still set.  `flag k` is the value of `isRecordingRef`
observed by segment `k`; `fuel` bounds the number of iterations so the
recursion is structural.  The result is the list of recorded intervals. -/
def recordLoop (chunkInterval : Nat) (flag : Nat → Bool) :
    Nat → Nat → Nat → List (Nat × Nat)
  | _, _, 0 => []
  | k, t, fuel + 1 =>
    if flag k then
      (t, t + chunkInterval) :: recordLoop chunkInterval flag (k + 1) (t + chunkInterval) fuel
    else []

/-- The props object App.tsx passes to `useAudioRecorder` (data part):
`chunkInterval` plus the extra `enableSystemAudio` field, which the
`UseAudioRecorderProps` interface of the hook does not declare and whose
destructuring `{ onAudioChunk, onError, chunkInterval = 5000 }` ignores. -/
structure AppRecorderConfig where
  chunkInterval : Nat
  enableSystemAudio : Bool
  deriving DecidableEq, Repr

/-- A full run of the hook under config `cfg`: `startChunkLoop` observes the
permission environment, and when it starts, the chunk loop records with the
configured interval.  Only the declared `chunkInterval` prop is consulted. -/
def useAudioRecorderRun (cfg : AppRecorderConfig) (env : CaptureEnv)
    (flag : Nat → Bool) (fuel : Nat) : StartResult × List (Nat × Nat) :=
  let r := startChunkLoopRun env
  (r, if r.started then recordLoop cfg.chunkInterval flag 0 0 fuel else [])

/-! ## Persistent storage (localStorage uses in src/App.tsx) -/

/-- Persistent store `localStorage`, modelled as an association list of key-value pairs. -/
abbrev LocalStorage : Type := List (String × String)

/-- Model of `localStorage.setItem`. -/
def storageSet (store : LocalStorage) (key value : String) : LocalStorage :=
  if (List.any store fun kv => kv.1 == key) then
    List.map (fun kv => if kv.1 == key then (key, value) else kv) store
  else store ++ [(key, value)]

/-- Model of `localStorage.getItem` (null becomes `none`). -/
def storageGet (store : LocalStorage) (key : String) : Option String :=
  Option.map (fun kv => kv.2) (List.find? (fun kv => kv.1 == key) store)

/-- The user actions of the App named by the claim. -/
inductive UserAction where
  | startRec
  | stopRec
  | toggleSource
  | clear
  | analyze
  deriving DecidableEq, Repr

/-- Effect of each user action on the App state, the `enableSystemAudio`
preference, and `localStorage`, from the handlers in App.tsx:
`handleToggleRecording` starts the recorder or stops it and triggers an
analysis, `toggleAudioSource` flips the preference and persists it with
`localStorage.setItem`, `handleClear` resets the transcript state, and the
Force-Analyze button calls `triggerAnalysis`.  None of the handlers other
than `toggleAudioSource` touches `localStorage`. -/
def appAction (a : UserAction) (s : AppState) (enable : Bool)
    (store : LocalStorage) : AppState × Bool × LocalStorage :=
  match a with
  | UserAction.startRec => (s, enable, store)
  | UserAction.stopRec => ((triggerAnalysisStart s).1, enable, store)
  | UserAction.toggleSource =>
      (s, !enable, storageSet store "enableSystemAudio" (jsBoolString !enable))
  | UserAction.clear => (handleClear s, enable, store)
  | UserAction.analyze => ((triggerAnalysisStart s).1, enable, store)

/-- The concatenation, in order, of a newline followed by each chunk's text:
the shape `processAudioChunk` gives `fullTranscript`. -/
def transcriptOfChunks (chunks : List TranscriptChunk) : String :=
  List.foldl (fun acc c => acc ++ "\n" ++ c.text) "" chunks

/-- The invariant relating `fullTranscript` to `transcriptChunks`. -/
def transcriptInvariant (s : AppState) : Prop :=
  s.fullTranscript = transcriptOfChunks s.transcriptChunks ∧
  ∀ c ∈ s.transcriptChunks, c.text ≠ ""

/-! ## Theorems settling the claims -/

/-- Claim C6: when the remote transcription call fails, `transcribeAudio`
never propagates the raw error: the raised message is always one of four
fixed user-facing strings, and for a failure whose stringified error
mentions exactly its own status code among 401, 403, 429 and 500, the
message is the one the claim lists for that code (with the generic
message for every other failure). -/
theorem transcribeAudio_errorMessages :
    (∀ s : String,
      transcribeErrorMessage s = "Transcription failed." ∨
      transcribeErrorMessage s = "Invalid API Key or unauthorized access." ∨
      transcribeErrorMessage s = "Usage limit exceeded. Please wait a moment." ∨
      transcribeErrorMessage s = "Gemini service temporarily unavailable.") ∧
    (∀ (apiKey : Option String) (e : String), jsFalsyKey apiKey = false →
      transcribeAudioModel apiKey (Except.error e) =
        (Except.error (transcribeErrorMessage e), true)) ∧
    (∀ (s : String) (c : Nat),
      jsIncludes s "401" = decide (c = 401) →
      jsIncludes s "403" = decide (c = 403) →
      jsIncludes s "429" = decide (c = 429) →
      jsIncludes s "500" = decide (c = 500) →
      transcribeErrorMessage s = expectedTranscribeMessage c) := by
  refine ⟨?_, ?_, ?_⟩
  · intro s
    unfold transcribeErrorMessage
    split_ifs <;> simp
  · intro apiKey e h
    unfold transcribeAudioModel checkApiKey
    rw [h]
    rfl
  · intro s c h1 h2 h3 h4
    unfold transcribeErrorMessage expectedTranscribeMessage
    rw [h1, h2, h3, h4]
    by_cases hc1 : c = 401 <;> by_cases hc2 : c = 403 <;>
      by_cases hc3 : c = 429 <;> by_cases hc4 : c = 500 <;>
      simp [hc1, hc2, hc3, hc4]

/-- Witness for C6 at a concrete 429 failure. -/
theorem transcribeAudio_errorMessages_witness :
    transcribeErrorMessage "ApiError: got status 429 RESOURCE_EXHAUSTED" =
      expectedTranscribeMessage 429 :=
  transcribeAudio_errorMessages.2.2 "ApiError: got status 429 RESOURCE_EXHAUSTED" 429
    (by decide) (by decide) (by decide) (by decide)

/-- Claim C8: both service wrappers guard their preconditions: with a falsy
API key (in particular an unset one) they raise the key-missing message
without contacting the remote service, and `analyzeTranscript` returns the
empty string without a remote call on a whitespace-only transcript. -/
theorem serviceWrappers_preconditionGuards :
    (∀ (apiKey : Option String) (remote : Except String (Option String)),
      jsFalsyKey apiKey = true →
      transcribeAudioModel apiKey remote =
        (Except.error geminiKeyMissingMessage, false)) ∧
    (∀ (apiKey : Option String) (t : String) (remote : Except String (Option String)),
      jsFalsyKey apiKey = true →
      analyzeTranscriptModel apiKey t remote =
        (Except.error geminiKeyMissingMessage, false)) ∧
    (∀ (apiKey : Option String) (t : String) (remote : Except String (Option String)),
      jsFalsyKey apiKey = false → jsTrim t = "" →
      analyzeTranscriptModel apiKey t remote = (Except.ok "", false)) := by
  refine ⟨?_, ?_, ?_⟩
  · intro apiKey remote h
    unfold transcribeAudioModel checkApiKey
    rw [h]
    rfl
  · intro apiKey t remote h
    unfold analyzeTranscriptModel checkApiKey
    rw [h]
    rfl
  · intro apiKey t remote h ht
    unfold analyzeTranscriptModel checkApiKey
    rw [h]
    simp [ht]

/-- Witness for C8: unset key, and a set key with a whitespace transcript. -/
theorem serviceWrappers_preconditionGuards_witness :
    transcribeAudioModel none (Except.ok (some "hello")) =
        (Except.error geminiKeyMissingMessage, false) ∧
    analyzeTranscriptModel none "hello" (Except.ok (some "ok")) =
        (Except.error geminiKeyMissingMessage, false) ∧
    analyzeTranscriptModel (some "k") "  " (Except.ok (some "ok")) =
        (Except.ok "", false) :=
  ⟨serviceWrappers_preconditionGuards.1 none (Except.ok (some "hello")) (by decide),
   serviceWrappers_preconditionGuards.2.1 none "hello" (Except.ok (some "ok")) (by decide),
   serviceWrappers_preconditionGuards.2.2 (some "k") "  " (Except.ok (some "ok"))
     (by decide) (by decide)⟩

/-- Appending one chunk extends the concatenated transcript by a newline and
the text of that chunk. -/
theorem transcriptOfChunks_append (l : List TranscriptChunk) (c : TranscriptChunk) :
    transcriptOfChunks (l ++ [c]) = transcriptOfChunks l ++ "\n" ++ c.text := by
  unfold transcriptOfChunks
  rw [List.foldl_append]
  rfl

/-- Claim C9: the App keeps the invariant that `fullTranscript` is the
concatenation of a newline followed by each chunk text over
`transcriptChunks`, with every stored chunk text non-empty; the invariant is
preserved by `processAudioChunk` and by `handleClear`, and `handleClear`
resets the four transcript and analysis fields together. -/
theorem transcript_invariant_preserved :
    ∀ (s : AppState) (result : Except String String) (now : Nat),
      transcriptInvariant s →
      transcriptInvariant (processAudioChunk s result now) ∧
      transcriptInvariant (handleClear s) ∧
      handleClear s = { s with transcriptChunks := [], fullTranscript := "",
                               analysisResult := "", lastAnalyzedLength := 0 } := by
  intro s result now hinv
  refine ⟨?_, ?_, rfl⟩
  · match result with
    | Except.error e => exact hinv
    | Except.ok text =>
      by_cases h : (text == "") = true
      · simp only [processAudioChunk, if_pos h]
        exact hinv
      · simp only [processAudioChunk, if_neg h]
        constructor
        · show s.fullTranscript ++ "\n" ++ text = _
          rw [transcriptOfChunks_append, hinv.1]
        · intro c hc
          rcases List.mem_append.mp hc with hl | hr
          · exact hinv.2 c hl
          · rcases List.mem_singleton.mp hr with rfl
            simpa using h
  · refine ⟨rfl, ?_⟩
    intro c hc
    simp [handleClear] at hc

/-- A concrete App state used by witnesses: one transcribed chunk. -/
def sampleAppState : AppState :=
  { transcriptChunks := [{ id := "1", text := "Speaker 1: hi", timestamp := 1, isFinal := true }]
    fullTranscript := "\nSpeaker 1: hi"
    analysisResult := ""
    isAnalyzing := false
    lastAnalyzedLength := 0 }

/-- Witness for C9 at a concrete state satisfying the invariant. -/
theorem transcript_invariant_preserved_witness :
    transcriptInvariant sampleAppState ∧
    transcriptInvariant (processAudioChunk sampleAppState (Except.ok "Speaker 2: yes") 2) :=
  ⟨⟨by decide, by decide⟩,
   (transcript_invariant_preserved sampleAppState (Except.ok "Speaker 2: yes") 2
     ⟨by decide, by decide⟩).1⟩

/-- Appending the empty string leaves a string unchanged. -/
theorem string_append_empty_right (s : String) : s ++ "" = s := by
  cases s with
  | mk data =>
    show String.mk (data ++ []) = String.mk data
    rw [List.append_nil]

/-- Claim C4: a completed clip is handed to transcription exactly when its
size is positive; a non-empty transcription result appends exactly one chunk
carrying that text and extends the transcript by a newline and the text; an
empty result changes nothing; and the transcript only ever grows by a
suffix. -/
theorem audioChunk_pipeline :
    (∀ parts : List Nat,
      (recorderOnStop parts).isSome = decide (0 < parts.sum) ∧
      ∀ b, recorderOnStop parts = some b → b = parts.sum) ∧
    (∀ (s : AppState) (text : String) (now : Nat), text ≠ "" →
      processAudioChunk s (Except.ok text) now =
        { s with
          transcriptChunks := s.transcriptChunks ++
            [{ id := toString now, text := text, timestamp := now, isFinal := true }],
          fullTranscript := s.fullTranscript ++ "\n" ++ text }) ∧
    (∀ (s : AppState) (now : Nat), processAudioChunk s (Except.ok "") now = s) ∧
    (∀ (s : AppState) (result : Except String String) (now : Nat),
      ∃ t : String,
        (processAudioChunk s result now).fullTranscript = s.fullTranscript ++ t) := by
  refine ⟨?_, ?_, ?_, ?_⟩
  · intro parts
    constructor
    · unfold recorderOnStop
      by_cases h : parts.sum > 0
      · rw [if_pos h]
        simpa using h
      · rw [if_neg h]
        simpa using h
    · intro b hb
      unfold recorderOnStop at hb
      by_cases h : parts.sum > 0
      · rw [if_pos h] at hb
        exact (Option.some_inj.mp hb).symm
      · rw [if_neg h] at hb
        exact absurd hb (Option.noConfusion)
  · intro s text now h
    have hbeq : (text == "") = false := by simpa using h
    simp only [processAudioChunk, hbeq]
    rfl
  · intro s now
    simp only [processAudioChunk]
    rfl
  · intro s result now
    match result with
    | Except.error e =>
      exact ⟨"", by simp only [processAudioChunk]; rw [string_append_empty_right]⟩
    | Except.ok text =>
      by_cases h : (text == "") = true
      · refine ⟨"", ?_⟩
        simp only [processAudioChunk, if_pos h]
        rw [string_append_empty_right]
      · refine ⟨"\n" ++ text, ?_⟩
        simp only [processAudioChunk, if_neg h]
        show s.fullTranscript ++ "\n" ++ text = s.fullTranscript ++ ("\n" ++ text)
        rw [String.append_assoc]

/-- Witness for C4 at a concrete clip and transcription. -/
theorem audioChunk_pipeline_witness :
    processAudioChunk sampleAppState (Except.ok "Speaker 2: sure") 9 =
      { sampleAppState with
        transcriptChunks := sampleAppState.transcriptChunks ++
          [{ id := toString 9, text := "Speaker 2: sure", timestamp := 9, isFinal := true }],
        fullTranscript := sampleAppState.fullTranscript ++ "\n" ++ "Speaker 2: sure" } :=
  audioChunk_pipeline.2.1 sampleAppState "Speaker 2: sure" 9 (by decide)

/-- Claim C3: summarization is length-triggered and debounced.  When the
transcript has grown past the last analyzed length by more than
`ANALYSIS_TRIGGER_LENGTH` with no analysis in flight (and, per the guard in
`triggerAnalysis` itself, the transcript is not whitespace-only), the effect
starts an analysis of the full transcript; `triggerAnalysis` never starts
one while `isAnalyzing` is set or on a whitespace-only transcript. -/
theorem analysisTrigger_debounce :
    ∀ s : AppState,
      ((s.fullTranscript.length : Int) - (s.lastAnalyzedLength : Int) >
          (ANALYSIS_TRIGGER_LENGTH : Int) → s.isAnalyzing = false →
        jsTrim s.fullTranscript ≠ "" →
        analysisEffect s =
          ({ s with isAnalyzing := true, lastAnalyzedLength := s.fullTranscript.length },
           some s.fullTranscript)) ∧
      (s.isAnalyzing = true → triggerAnalysisStart s = (s, none) ∧
        analysisEffect s = (s, none)) ∧
      (jsTrim s.fullTranscript = "" → triggerAnalysisStart s = (s, none)) := by
  intro s
  refine ⟨?_, ?_, ?_⟩
  · intro hlen hana htrim
    unfold analysisEffect
    rw [if_pos ⟨hlen, hana⟩]
    unfold triggerAnalysisStart
    have hbeq : (jsTrim s.fullTranscript == "") = false := by simpa using htrim
    rw [hana, hbeq]
    rfl
  · intro hana
    constructor
    · unfold triggerAnalysisStart
      rw [hana]
      rfl
    · unfold analysisEffect
      rw [if_neg]
      intro hcon
      rw [hana] at hcon
      exact absurd hcon.2 (by simp)
  · intro htrim
    unfold triggerAnalysisStart
    have hbeq : (jsTrim s.fullTranscript == "") = true := by simpa using htrim
    rw [hbeq]
    simp

/-- A transcript of 151 non-whitespace characters, longer than the trigger
threshold. -/
def longTranscript : String :=
  String.mk (List.replicate 151 'a')

/-- A concrete App state past the analysis threshold. -/
def readyAppState : AppState :=
  { transcriptChunks := [{ id := "1", text := longTranscript, timestamp := 1, isFinal := true }]
    fullTranscript := longTranscript
    analysisResult := ""
    isAnalyzing := false
    lastAnalyzedLength := 0 }

set_option maxRecDepth 8000 in
/-- Witness for C3 at a concrete state past the threshold. -/
theorem analysisTrigger_debounce_witness :
    analysisEffect readyAppState =
      ({ readyAppState with isAnalyzing := true,
                            lastAnalyzedLength := readyAppState.fullTranscript.length },
       some readyAppState.fullTranscript) :=
  (analysisTrigger_debounce readyAppState).1 (by decide) (by decide) (by decide)

/-- Counterexample to claim C2 as stated: when the user denies the
system-audio dialog and the microphone is granted, recording proceeds with
microphone audio only, but no notification at all is passed to `onError`
(the hook only logs to the console), so the fallback is not preceded by a
user notification. -/
theorem startChunkLoop_deniedByUser_noNotification :
    (startChunkLoopRun { systemCapture := SystemCaptureOutcome.deniedByUser,
                         micGranted := true }).started = true ∧
    (startChunkLoopRun { systemCapture := SystemCaptureOutcome.deniedByUser,
                         micGranted := true }).usesSystemAudio = false ∧
    (startChunkLoopRun { systemCapture := SystemCaptureOutcome.deniedByUser,
                         micGranted := true }).usesMicrophone = true ∧
    (startChunkLoopRun { systemCapture := SystemCaptureOutcome.deniedByUser,
                         micGranted := true }).notifications = [] := by
  decide

/-- Claim C2 (amended): if system-audio capture is unavailable for any
reason, recording proceeds with microphone audio only, and the user is
notified exactly in the permissions-policy-blocked case and in the
missing-audio-track case (user denial and other failures fall back
silently); if the microphone also fails, `startChunkLoop` reports the
no-sources error, stops, and the recorder ends in the IDLE state. -/
theorem startChunkLoop_partialPermissionFallback :
    ∀ env : CaptureEnv, env.systemCapture ≠ SystemCaptureOutcome.granted →
      (startChunkLoopRun env).usesSystemAudio = false ∧
      (env.micGranted = true →
        (startChunkLoopRun env).started = true ∧
        (startChunkLoopRun env).recordingState = RecordingState.recording ∧
        (startChunkLoopRun env).usesMicrophone = true ∧
        (startChunkLoopRun env).notifications =
          (if env.systemCapture = SystemCaptureOutcome.blockedByPolicy then
            [(systemAudioBlockedMessage, ToastType.info)]
           else if env.systemCapture = SystemCaptureOutcome.noAudioTrack then
            [(noSystemAudioMessage, ToastType.info)]
           else [])) ∧
      (env.micGranted = false →
        (startChunkLoopRun env).started = false ∧
        (startChunkLoopRun env).recordingState = RecordingState.idle ∧
        (noSourcesMessage, ToastType.error) ∈ (startChunkLoopRun env).notifications) := by
  intro env
  rcases env with ⟨sys, mic⟩
  cases sys <;> cases mic <;> simp [startChunkLoopRun]

/-- Witness for C2 (amended) at the policy-blocked environment with a
granted microphone. -/
theorem startChunkLoop_partialPermissionFallback_witness :
    (startChunkLoopRun { systemCapture := SystemCaptureOutcome.blockedByPolicy,
                         micGranted := true }).started = true ∧
    (startChunkLoopRun { systemCapture := SystemCaptureOutcome.blockedByPolicy,
                         micGranted := true }).notifications =
      [(systemAudioBlockedMessage, ToastType.info)] := by
  have h := startChunkLoop_partialPermissionFallback
    { systemCapture := SystemCaptureOutcome.blockedByPolicy, micGranted := true }
    (by decide)
  exact ⟨(h.2.1 rfl).1, by simpa using (h.2.1 rfl).2.2.2⟩

/-- Claim C7: the recorder run is a function of the declared props only.
Two hook configurations that agree on `chunkInterval` (in particular, two
that differ only in the undeclared `enableSystemAudio` extra prop) produce
identical runs in every permission environment, and system-audio capture is
attempted whenever the browser supports it, regardless of the preference. -/
theorem useAudioRecorder_ignores_enableSystemAudio :
    ∀ (cfg cfg2 : AppRecorderConfig) (env : CaptureEnv) (flag : Nat → Bool) (fuel : Nat),
      cfg.chunkInterval = cfg2.chunkInterval →
      useAudioRecorderRun cfg env flag fuel = useAudioRecorderRun cfg2 env flag fuel ∧
      (env.systemCapture ≠ SystemCaptureOutcome.unsupported →
        (useAudioRecorderRun cfg env flag fuel).1.attemptedSystemCapture = true) := by
  intro cfg cfg2 env flag fuel h
  constructor
  · unfold useAudioRecorderRun
    rw [h]
  · intro hsup
    show (startChunkLoopRun env).attemptedSystemCapture = true
    rcases env with ⟨sys, mic⟩
    cases sys <;> cases mic <;> simp_all [startChunkLoopRun]

/-- Witness for C7: the same run under the two values of the preference. -/
theorem useAudioRecorder_ignores_enableSystemAudio_witness :
    useAudioRecorderRun { chunkInterval := 8000, enableSystemAudio := true }
        { systemCapture := SystemCaptureOutcome.granted, micGranted := true }
        (fun k => decide (k < 1)) 2 =
      useAudioRecorderRun { chunkInterval := 8000, enableSystemAudio := false }
        { systemCapture := SystemCaptureOutcome.granted, micGranted := true }
        (fun k => decide (k < 1)) 2 :=
  (useAudioRecorder_ignores_enableSystemAudio
    { chunkInterval := 8000, enableSystemAudio := true }
    { chunkInterval := 8000, enableSystemAudio := false }
    { systemCapture := SystemCaptureOutcome.granted, micGranted := true }
    (fun k => decide (k < 1)) 2 rfl).1

/-- The first clip produced by the loop starts at the loop start time. -/
theorem recordLoop_head_fst (I : Nat) (flag : Nat → Bool) :
    ∀ (fuel k t : Nat) (p : Nat × Nat) (l : List (Nat × Nat)),
      recordLoop I flag k t fuel = p :: l → p.1 = t := by
  intro fuel k t p l h
  cases fuel with
  | zero => exact absurd h (by simp [recordLoop])
  | succ n =>
    unfold recordLoop at h
    by_cases hf : flag k = true
    · rw [if_pos hf] at h
      cases h
      rfl
    · rw [if_neg hf] at h
      exact absurd h (by simp)

/-- Contiguity: in any run of the loop, each clip ends exactly where the
next one starts. -/
theorem recordLoop_contiguous (I : Nat) (flag : Nat → Bool) :
    ∀ (fuel k t : Nat),
      List.Chain' (fun a b : Nat × Nat => a.2 = b.1) (recordLoop I flag k t fuel) := by
  intro fuel
  induction fuel with
  | zero =>
    intro k t
    simp [recordLoop]
  | succ n ih =>
    intro k t
    unfold recordLoop
    by_cases hf : flag k = true
    · rw [if_pos hf]
      apply List.chain'_cons'.mpr
      refine ⟨?_, ih (k + 1) (t + I)⟩
      intro y hy
      cases hrec : recordLoop I flag (k + 1) (t + I) n with
      | nil => rw [hrec] at hy; exact absurd hy (by simp)
      | cons p l =>
        rw [hrec] at hy
        simp only [List.head?_cons, Option.mem_some_iff] at hy
        rw [← hy] at *
        exact (recordLoop_head_fst I flag n (k + 1) (t + I) p l hrec).symm
    · rw [if_neg hf]
      simp

/-- Fixed duration: every clip the loop produces spans one chunk interval. -/
theorem recordLoop_duration (I : Nat) (flag : Nat → Bool) :
    ∀ (fuel k t : Nat) (p : Nat × Nat),
      p ∈ recordLoop I flag k t fuel → p.2 = p.1 + I := by
  intro fuel
  induction fuel with
  | zero =>
    intro k t p h
    exact absurd h (by simp [recordLoop])
  | succ n ih =>
    intro k t p h
    unfold recordLoop at h
    by_cases hf : flag k = true
    · rw [if_pos hf] at h
      rcases List.mem_cons.mp h with h1 | h2
      · rw [h1]
      · exact ih (k + 1) (t + I) p h2
    · rw [if_neg hf] at h
      exact absurd h (by simp)

/-- Closed form of the loop when the recording flag stays set for the first
`n` segments: exactly `n` back-to-back clips of length `I` are produced. -/
theorem recordLoop_closedForm (I : Nat) :
    ∀ (fuel n k t : Nat), n - k ≤ fuel →
      recordLoop I (fun j => decide (j < n)) k t fuel =
        (List.range (n - k)).map (fun j => (t + j * I, t + j * I + I)) := by
  intro fuel
  induction fuel with
  | zero =>
    intro n k t h
    have h0 : n - k = 0 := Nat.le_zero.mp h
    rw [h0]
    simp [recordLoop]
  | succ m ih =>
    intro n k t h
    unfold recordLoop
    by_cases hk : k < n
    · rw [if_pos (by simpa using hk)]
      rw [ih n (k + 1) (t + I) (by omega)]
      have hnk : n - k = (n - (k + 1)) + 1 := by omega
      rw [hnk, List.range_succ_eq_map, List.map_cons, List.map_map]
      congr 1
      · simp
      · apply List.map_congr_left
        intro a _
        simp only [Function.comp_apply]
        have : t + (a + 1) * I = (t + I) + a * I := by ring
        rw [this]
    · rw [if_neg (by simpa using hk)]
      have h0 : n - k = 0 := by omega
      rw [h0]
      simp

/-- Claim C1: the chunk loop segments the mixed audio into clips of one
fixed duration (5000 ms by default, 8000 ms as configured by the App); and
while the recording flag is still set at the end of a clip, the next
segment starts exactly where the previous one ended, so a run whose flag
stays set for `n` segments yields `n` contiguous gap-free clips of length
`I`. -/
theorem chunkLoop_contiguous_fixedDuration :
    chunkIntervalDefault = 5000 ∧ CHUNK_INTERVAL = 8000 ∧
    (∀ (I : Nat) (flag : Nat → Bool) (k t fuel : Nat),
      List.Chain' (fun a b : Nat × Nat => a.2 = b.1) (recordLoop I flag k t fuel)) ∧
    (∀ (I : Nat) (flag : Nat → Bool) (k t fuel : Nat),
      ∀ p ∈ recordLoop I flag k t fuel, p.2 = p.1 + I) ∧
    (∀ (I n t0 fuel : Nat), n ≤ fuel →
      recordLoop I (fun j => decide (j < n)) 0 t0 fuel =
        (List.range n).map (fun j => (t0 + j * I, t0 + j * I + I))) := by
  refine ⟨rfl, rfl, ?_, ?_, ?_⟩
  · intro I flag k t fuel
    exact recordLoop_contiguous I flag fuel k t
  · intro I flag k t fuel p hp
    exact recordLoop_duration I flag fuel k t p hp
  · intro I n t0 fuel h
    have := recordLoop_closedForm I fuel n 0 t0 (by omega)
    simpa using this

/-- Witness for C1: two 8000 ms clips recorded back to back. -/
theorem chunkLoop_contiguous_fixedDuration_witness :
    recordLoop 8000 (fun j => decide (j < 2)) 0 0 3 =
      (List.range 2).map (fun j => (0 + j * 8000, 0 + j * 8000 + 8000)) :=
  chunkLoop_contiguous_fixedDuration.2.2.2.2 8000 2 0 3 (by decide)

/-- Overwriting the entry for `key` does not change lookups of other keys. -/
theorem storage_find_map (key value k : String) (hk : (key == k) = false) :
    ∀ store : LocalStorage,
      List.find? (fun kv => kv.1 == k)
        (List.map (fun kv => if kv.1 == key then (key, value) else kv) store) =
      List.find? (fun kv => kv.1 == k) store := by
  intro store
  induction store with
  | nil => rfl
  | cons kv rest ih =>
    simp only [List.map_cons]
    by_cases h1 : (kv.1 == key) = true
    · have hkv : kv.1 = key := eq_of_beq h1
      rw [if_pos h1]
      have h2 : (kv.1 == k) = false := by rw [hkv]; exact hk
      simp only [List.find?, hk, h2]
      exact ih
    · rw [if_neg h1]
      by_cases h2 : (kv.1 == k) = true
      · simp only [List.find?, h2]
      · simp only [Bool.not_eq_true] at h2
        simp only [List.find?, h2]
        exact ih

/-- Appending a `key` entry does not change lookups of other keys. -/
theorem storage_find_append_single (key value k : String) (hk : (key == k) = false) :
    ∀ store : LocalStorage,
      List.find? (fun kv => kv.1 == k) (store ++ [(key, value)]) =
      List.find? (fun kv => kv.1 == k) store := by
  intro store
  induction store with
  | nil => simp [List.find?, hk]
  | cons kv rest ih =>
    by_cases h2 : (kv.1 == k) = true
    · simp [List.find?_cons, h2]
    · simp only [Bool.not_eq_true] at h2
      simp [List.find?_cons, h2, ih]

/-- Writing via `storageSet key value` leaves every other key of the store unchanged. -/
theorem storageGet_storageSet_ne (key value k : String) (hk : k ≠ key)
    (store : LocalStorage) :
    storageGet (storageSet store key value) k = storageGet store k := by
  have hbk : (key == k) = false := by simpa using Ne.symm hk
  unfold storageSet storageGet
  by_cases hany : (List.any store fun kv => kv.1 == key) = true
  · rw [if_pos hany, storage_find_map key value k hbk store]
  · rw [if_neg hany, storage_find_append_single key value k hbk store]

/-- Counterexample to claim C5 as stated: the toggle-audio-source user
action writes to localStorage, so its contents do not stay unchanged under
every user action. -/
theorem toggleAudioSource_writes_localStorage :
    (appAction UserAction.toggleSource sampleAppState true []).2.2 ≠
      ([] : LocalStorage) := by
  decide

/-- Claim C5 (amended): every user action except toggling the audio source
leaves localStorage unchanged, and toggling writes only the
enableSystemAudio preference key, leaving every other key unchanged. -/
theorem userActions_localStorage_frame :
    ∀ (a : UserAction) (s : AppState) (enable : Bool) (store : LocalStorage),
      (a ≠ UserAction.toggleSource → (appAction a s enable store).2.2 = store) ∧
      (∀ k : String, k ≠ "enableSystemAudio" →
        storageGet (appAction a s enable store).2.2 k = storageGet store k) := by
  intro a s enable store
  cases a with
  | startRec => exact ⟨fun _ => rfl, fun k _ => rfl⟩
  | stopRec => exact ⟨fun _ => rfl, fun k _ => rfl⟩
  | clear => exact ⟨fun _ => rfl, fun k _ => rfl⟩
  | analyze => exact ⟨fun _ => rfl, fun k _ => rfl⟩
  | toggleSource =>
    refine ⟨fun h => absurd rfl h, ?_⟩
    intro k hk
    show storageGet (storageSet store "enableSystemAudio" (jsBoolString !enable)) k =
      storageGet store k
    exact storageGet_storageSet_ne "enableSystemAudio" (jsBoolString !enable) k hk store

/-- Witness for C5 (amended): clear leaves a concrete store unchanged, and a
toggle leaves a different key unchanged. -/
theorem userActions_localStorage_frame_witness :
    (appAction UserAction.clear sampleAppState true
        [("enableSystemAudio", "true")]).2.2 = [("enableSystemAudio", "true")] ∧
    storageGet (appAction UserAction.toggleSource sampleAppState true
        [("enableSystemAudio", "true")]).2.2 "theme" =
      storageGet [("enableSystemAudio", "true")] "theme" :=
  ⟨(userActions_localStorage_frame UserAction.clear sampleAppState true
      [("enableSystemAudio", "true")]).1 (by decide),
   (userActions_localStorage_frame UserAction.toggleSource sampleAppState true
      [("enableSystemAudio", "true")]).2 "theme" (by decide)⟩
